import Mathlib

/-!
# Verification of the `thumber` contact-sheet generator

A shallow embedding of `pkg/thumber/thumber.go` (the current variant: the one
with the concurrent extraction pool, `ParseColor`, and the
`timestampRenderer` interface) together with the CLI-facing helpers, and
proofs settling the frozen claims about it.

Modelling conventions:
* Go `time.Duration` is an `int64` count of nanoseconds, modelled as `Int`
  (all arithmetic on it in the source stays far below 2^63, so plain `Int`
  is faithful).
* Go integer division / remainder truncate toward zero; they are modelled by
  `goDiv` / `goMod` below.  Go panics on division by zero; every spot where
  the source can divide by zero is modelled by an explicit branch.
* `image.Image` values are opaque to the algorithms under verification: the
  code only reads bounds and composes images with `imaging.Overlay` /
  `imaging.Paste` / `imaging.New`.  `GoImage` is the resulting term algebra;
  `imaging.Overlay` and `imaging.Paste` both return an image with the bounds
  of their first (background) argument, which is what `GoImage.dx`/`dy`
  compute.
* External effects (ffmpeg frame extraction, freetype rasterisation) are
  abstracted as outcome environments passed in as functions: `env i` is the
  decode outcome of the pool task with index `i`, and `render label` is the
  outcome of `timestampRenderer.Render label`.
* The `conc` pool runs every submitted task (no cancel-on-error is
  configured); results are appended in completion order, which is modelled
  by an explicit completion order `order : List Nat` ranging over the task
  indices.  `WithCollectErrored` appends the zero value for errored tasks.
-/

/-- `time.Second` in nanoseconds. -/
def nsPerSecond : Int := 1000000000

/-- Go integer division on `int64`: truncation toward zero
(`a / b` in Go source).  Division by zero is handled separately at each use
site, since Go panics there. -/
def goDiv (a b : Int) : Int := a.sign * b.sign * ((a.natAbs / b.natAbs : Nat) : Int)

/-- Go integer remainder on `int64` (`a % b` in Go source): the remainder has
the sign of the dividend. -/
def goMod (a b : Int) : Int := a.sign * ((a.natAbs % b.natAbs : Nat) : Int)

/-- `int(math.Ceil(float64 n / float64 c))` as used by `makeContactSheet`,
modelled exactly for the in-range case `0 ≤ n`, `0 < c` (float64 arithmetic
is exact there for every value the program can produce). -/
def goCeilDiv (n c : Int) : Int := goDiv (n + c - 1) c

/-- The image algebra seen by the code: decoded raster frames (`raw`, with an
identifier `id` distinguishing distinct decodes), `imaging.New` canvases
(`uniform`), `imaging.Overlay` results (`overlaid`) and `imaging.Paste`
results (`pasted`).  `nilImage` is the `nil` interface value inside a zero
`Thumbnail` (created only for errored, collected-then-discarded pool
results). -/
inductive GoImage where
  | nilImage
  | raw (id : Nat) (width height : Int)
  | uniform (width height : Int)
  | overlaid (base top : GoImage) (x y : Int)
  | pasted (base top : GoImage) (x y : Int)
deriving DecidableEq, Repr

/-- `Bounds().Dx()`: `imaging.Overlay`/`imaging.Paste` keep the background's
bounds.  (Go would panic on a nil image; the claims never reach that.) -/
def GoImage.dx : GoImage → Int
  | .nilImage => 0
  | .raw _ w _ => w
  | .uniform w _ => w
  | .overlaid b _ _ _ => b.dx
  | .pasted b _ _ _ => b.dx

/-- `Bounds().Dy()`. -/
def GoImage.dy : GoImage → Int
  | .nilImage => 0
  | .raw _ _ h => h
  | .uniform _ h => h
  | .overlaid b _ _ _ => b.dy
  | .pasted b _ _ _ => b.dy

/-- Observer: the tiles pasted onto an image by `imaging.Paste`, in paste
order, with their top-left positions.  (`overlaid` is the in-tile label
compositing and is deliberately not a paste.) -/
def GoImage.pastes : GoImage → List (GoImage × Int × Int)
  | .pasted b t x y => b.pastes ++ [(t, x, y)]
  | _ => []

/-- `type Thumbnail struct { image.Image; Timestamp time.Duration }`. -/
structure Thumbnail where
  Image : GoImage
  Timestamp : Int
deriving DecidableEq, Repr

/-- The zero value `Thumbnail{}` (nil image, zero timestamp). -/
def zeroThumb : Thumbnail := { Image := .nilImage, Timestamp := 0 }

/-- The colors `ParseColor` can produce: `color.Transparent` (the package
constant, fully transparent) or a `color.RGBA` with byte channels. -/
inductive GoColor where
  | transparentColor
  | rgba (r g b a : Nat)
deriving DecidableEq, Repr

/-- `type ThumbOptions struct { ... }` (field defaults are Go zero values). -/
structure ThumbOptions where
  From : Int := 0
  To : Int := 0
  TileColumns : Int := 0
  TileCount : Int := 0
  Interval : Int := 0
  TileWidth : Int := 0
  TileHeight : Int := 0
  OverlayTimestamps : Bool := false
  TimestampBackground : GoColor := .rgba 0 0 0 0
  Padding : Int := 0

/-- `func (o ThumbOptions) Validate() error`. -/
def ThumbOptions.Validate (o : ThumbOptions) : Except String Unit :=
  if o.From ≠ 0 ∧ o.To ≠ 0 ∧ o.From > o.To then
    .error "starting point cannot be after ending point"
  else if o.Interval ≠ 0 ∧ o.TileCount ≠ 0 then
    .error "interval and tile count cannot be set together"
  else .ok ()

/-- The sampling window `end - start` computed at the top of
`MakeThumbnails`: `start := opts.From`; `end := duration; if opts.To != 0 {
end = opts.To }`; `duration = end - start`.  `total` is the probed video
duration returned by `readDuration`. -/
def windowOf (opts : ThumbOptions) (total : Int) : Int :=
  (if opts.To ≠ 0 then opts.To else total) - opts.From

/-- Outcome of the timing-planner slice of `MakeThumbnails`: `crash` is a Go
runtime panic (integer divide by zero), `fail` an error return. -/
inductive PlanOutcome where
  | crash
  | fail (msg : String)
  | ok (timestamps : List Int)
deriving DecidableEq, Repr

/-- The timing-planner slice of `MakeThumbnails` (everything between the
`readDuration` call and the pool construction).  Faithful points: the
`opts.Interval > duration` guard is checked before the tile count is
computed (the second, identical check inside the `opts.Interval != 0` branch
is unreachable and therefore dropped); `totalTiles` comes from
`int(duration / opts.Interval)` when an interval is set, else from
`opts.TileCount`; the spacing `interval := duration /
time.Duration(totalTiles)` divides by zero — a Go panic — when
`totalTiles == 0`; the sample for loop index `i` is `start +
time.Duration(i) * interval`. -/
def planTimestamps (opts : ThumbOptions) (total : Int) : PlanOutcome :=
  let start := opts.From
  let dur := windowOf opts total
  if opts.Interval > dur then
    .fail "interval is larger than available video duration"
  else
    let totalTiles := if opts.Interval ≠ 0 then goDiv dur opts.Interval else opts.TileCount
    if totalTiles = 0 then .crash
    else
      let interval := goDiv dur totalTiles
      .ok ((List.range totalTiles.toNat).map (fun i : Nat => start + (i : Int) * interval))

/-- `indexedThumb` (the pool's unit of work result). -/
structure IndexedThumb where
  thumb : Thumbnail
  index : Nat
deriving DecidableEq, Repr

/-- One pool task: `extractThumbnail` at sample `i` (timestamp `ts[i]`), with
`env i` the external decode outcome of that invocation.  On success
`extractThumbnail` always stores the requested timestamp in the returned
`Thumbnail`. -/
def taskRun (ts : List Int) (env : Nat → Except String GoImage) (i : Nat) :
    Except String IndexedThumb :=
  match env i with
  | .error e => .error e
  | .ok img => .ok { thumb := { Image := img, Timestamp := ts.getD i 0 }, index := i }

/-- `slices.SortFunc(results, func(a, b) bool { return a.Index < b.Index })`:
an unstable comparison sort.  On the index-distinct result lists the pool
produces, every comparison sort returns the same (unique) sorted
permutation, so insertion sort models it exactly. -/
def sortByIndex (l : List IndexedThumb) : List IndexedThumb :=
  List.insertionSort (fun a b => a.index ≤ b.index) l

/-- Outcome of the pool stage: `fail` is MakeThumbnails' `return nil, err`
after `p.Wait()` (the joined per-task errors, in completion order), `ok` the
sorted thumbnail list. -/
inductive PoolOutcome where
  | fail (errs : List String)
  | ok (thumbs : List Thumbnail)
deriving DecidableEq, Repr

/-- The pool stage of `MakeThumbnails`: every task runs (no cancel-on-error
is configured), results are appended in completion order `order`
(`WithCollectErrored` appends the zero value `indexedThumb{}` for errored
tasks), `p.Wait()` joins the task errors, `MakeThumbnails` returns
`nil, err` when that join is non-nil, and otherwise sorts by original index
and projects the thumbnails. -/
def poolStage (ts : List Int) (env : Nat → Except String GoImage)
    (order : List Nat) : PoolOutcome :=
  let completions := order.map (fun i => taskRun ts env i)
  let errs := completions.filterMap (fun r => match r with
    | .error e => some e
    | .ok _ => none)
  if errs.isEmpty then
    let results := completions.map (fun r => match r with
      | .error _ => { thumb := zeroThumb, index := 0 }
      | .ok r => r)
    .ok ((sortByIndex results).map (·.thumb))
  else .fail errs

/-- Outcome of `MakeThumbnails`. -/
inductive MTOutcome where
  | crash
  | fail (errs : List String)
  | ok (thumbs : List Thumbnail)
deriving DecidableEq, Repr

/-- `func MakeThumbnails(ctx, videoPath, opts) ([]Thumbnail, error)`, with
`checkFfmpegInstalled` assumed to succeed and `readDuration` abstracted to
return `total`.  `env` is the per-task external extraction outcome and
`order` the pool completion order. -/
def MakeThumbnails (opts : ThumbOptions) (total : Int)
    (env : Nat → Except String GoImage) (order : List Nat) : MTOutcome :=
  match opts.Validate with
  | .error e => .fail ["invalid options: " ++ e]
  | .ok _ =>
    match planTimestamps opts total with
    | .crash => .crash
    | .fail m => .fail [m]
    | .ok ts =>
      match poolStage ts env order with
      | .fail errs => .fail errs
      | .ok thumbs => .ok thumbs

/-- `fmt.Sprintf("%02d", n)` for the `int64` duration components. -/
def pad2 (n : Int) : String := if 0 ≤ n ∧ n < 10 then "0" ++ toString n else toString n

/-- `func formatDuration(d time.Duration) string`. -/
def formatDuration (d : Int) : String :=
  let h := goDiv d (3600 * nsPerSecond)
  let d1 := d - h * (3600 * nsPerSecond)
  let m := goDiv d1 (60 * nsPerSecond)
  let d2 := d1 - m * (60 * nsPerSecond)
  let s := goDiv d2 nsPerSecond
  pad2 h ++ ":" ++ pad2 m ++ ":" ++ pad2 s

/-- `func (t *Thumbnail) overlayTimestamp(r timestampRenderer) error`:
renders the formatted timestamp, then overlays it 10px in from the
bottom-right corner of the tile. -/
def Thumbnail.overlayTimestamp (t : Thumbnail)
    (render : String → Except String GoImage) : Except String Thumbnail :=
  match render (formatDuration t.Timestamp) with
  | .error e => .error e
  | .ok textImg =>
    let x := t.Image.dx - textImg.dx - 10
    let y := t.Image.dy - textImg.dy - 10
    .ok { t with Image := .overlaid t.Image textImg x y }

/-- Tile width used by `makeContactSheet`: `thumbs[0].Bounds().Dx()` (Go
panics on an empty slice; no claim exercises that). -/
def tileWidthOf (thumbs : List Thumbnail) : Int := (thumbs.headD zeroThumb).Image.dx

/-- Tile height used by `makeContactSheet`: `thumbs[0].Bounds().Dy()`. -/
def tileHeightOf (thumbs : List Thumbnail) : Int := (thumbs.headD zeroThumb).Image.dy

/-- `col := i % opts.TileColumns` in the paste loop. -/
def colOf (c : Int) (i : Nat) : Int := goMod (i : Int) c

/-- `row := i / opts.TileColumns` in the paste loop. -/
def rowOf (c : Int) (i : Nat) : Int := goDiv (i : Int) c

/-- `x := opts.Padding + col*tileWidth + col*opts.Padding`. -/
def xPos (opts : ThumbOptions) (tileWidth : Int) (i : Nat) : Int :=
  opts.Padding + colOf opts.TileColumns i * tileWidth +
    colOf opts.TileColumns i * opts.Padding

/-- `y := opts.Padding + row*tileHeight + row*opts.Padding`. -/
def yPos (opts : ThumbOptions) (tileHeight : Int) (i : Nat) : Int :=
  opts.Padding + rowOf opts.TileColumns i * tileHeight +
    rowOf opts.TileColumns i * opts.Padding

/-- The body of `makeContactSheet`'s paste loop for one `(i, img)` pair:
with overlays enabled, a failed `overlayTimestamp` is logged and the loop
`continue`s — that tile is never pasted; otherwise the (possibly annotated)
tile is pasted at its grid position. -/
def sheetStep (opts : ThumbOptions) (tileWidth tileHeight : Int)
    (render : String → Except String GoImage) (canvas : GoImage)
    (p : Nat × Thumbnail) : GoImage :=
  let x := xPos opts tileWidth p.1
  let y := yPos opts tileHeight p.1
  if opts.OverlayTimestamps then
    match p.2.overlayTimestamp render with
    | .error _ => canvas
    | .ok t2 => .pasted canvas t2.Image x y
  else .pasted canvas p.2.Image x y

/-- `func makeContactSheet(thumbs []Thumbnail, opts ThumbOptions) image.Image`,
with the `defaultRenderer` built from the options abstracted to `render`. -/
def makeContactSheet (thumbs : List Thumbnail) (opts : ThumbOptions)
    (render : String → Except String GoImage) : GoImage :=
  let rows := goCeilDiv (thumbs.length : Int) opts.TileColumns
  let w := tileWidthOf thumbs * opts.TileColumns + (opts.TileColumns + 1) * opts.Padding
  let h := tileHeightOf thumbs * rows + (rows + 1) * opts.Padding
  thumbs.enum.foldl
    (sheetStep opts (tileWidthOf thumbs) (tileHeightOf thumbs) render)
    (.uniform w h)

/-- The UTF-8 bytes of one character (Go strings are byte strings; `len` and
indexing in `ParseColor` are byte-based). -/
def charBytes (c : Char) : List Nat :=
  let n := c.toNat
  if n < 128 then [n]
  else if n < 2048 then [192 + n / 64, 128 + n % 64]
  else if n < 65536 then [224 + n / 4096, 128 + (n / 64) % 64, 128 + n % 64]
  else [240 + n / 262144, 128 + (n / 4096) % 64, 128 + (n / 64) % 64, 128 + n % 64]

/-- The byte view Go has of a string value. -/
def goBytes (s : String) : List Nat := s.data.flatMap charBytes

/-- `strconv.ParseInt` digit value of one byte, base 16. -/
def hexVal (b : Nat) : Option Nat :=
  if 48 ≤ b ∧ b ≤ 57 then some (b - 48)
  else if 97 ≤ b ∧ b ≤ 102 then some (b - 87)
  else if 65 ≤ b ∧ b ≤ 70 then some (b - 55)
  else none

/-- Value of a digit run for `strconv.ParseInt(_, 16, 64)`; `none` on any
non-digit.  (The empty run is rejected by `goParseIntHex64` itself.) -/
def hexDigitsVal (bs : List Nat) : Option Nat :=
  bs.foldl (fun acc b => match acc, hexVal b with
    | some v, some d => some (16 * v + d)
    | _, _ => none) (some 0)

/-- `strconv.ParseInt(s, 16, 64)` on the (at most two byte) channel slices of
`ParseColor`, with the error discarded exactly as the source does
(`r, _ = strconv.ParseInt(...)`): a parse error leaves the channel at 0.
`ParseInt` accepts an optional leading sign; overflow is impossible at two
digits. -/
def goParseIntHex64 (bs : List Nat) : Int :=
  match bs with
  | [] => 0
  | 43 :: rest =>
    if rest = [] then 0
    else match hexDigitsVal rest with
      | some v => (v : Int)
      | none => 0
  | 45 :: rest =>
    if rest = [] then 0
    else match hexDigitsVal rest with
      | some v => -(v : Int)
      | none => 0
  | _ =>
    match hexDigitsVal bs with
    | some v => (v : Int)
    | none => 0

/-- `uint8(v)` for an `int64` channel value: the low 8 bits. -/
def goUInt8 (v : Int) : Nat := (Int.emod v 256).toNat

/-- One channel of `ParseColor`: parse two bytes as hex, discard the error,
truncate to `uint8`. -/
def colorChannel (bs : List Nat) : Nat := goUInt8 (goParseIntHex64 bs)

/-- `hex = hex[1:]` when the first byte is `'#'` (35). -/
def stripHashBytes (bs : List Nat) : List Nat :=
  match bs with
  | b0 :: rest => if b0 = 35 then rest else b0 :: rest
  | [] => []

/-- Outcome of `ParseColor`: `crash` is the index-out-of-range panic of
`hex[0]` on the empty string. -/
inductive ColorOutcome where
  | crash
  | fail (msg : String)
  | ok (c : GoColor)
deriving DecidableEq, Repr

/-- `func ParseColor(hex string) (color.Color, error)`.  (The Go error
message embeds the stripped input after the colon; the suffix is elided
here.) -/
def ParseColor (hex : String) : ColorOutcome :=
  if hex = "transparent" then .ok .transparentColor
  else
    match goBytes hex with
    | [] => .crash
    | b0 :: rest =>
      let bs := stripHashBytes (b0 :: rest)
      if bs.length = 6 then
        .ok (.rgba (colorChannel (bs.take 2)) (colorChannel ((bs.drop 2).take 2))
          (colorChannel ((bs.drop 4).take 2)) 255)
      else if bs.length = 8 then
        .ok (.rgba (colorChannel (bs.take 2)) (colorChannel ((bs.drop 2).take 2))
          (colorChannel ((bs.drop 4).take 2)) (colorChannel ((bs.drop 6).take 2)))
      else .fail "invalid hex color string"

/-- The error list `p.Wait()` hands back: the errors of the failed tasks, in
completion order.  Each entry is exactly the `extractThumbnail` error of that
task — `ffmpeg`/decode cause text only, no timestamp (the timestamp is sent
to the log, not wrapped into the error). -/
def poolErrors (env : Nat → Except String GoImage) (order : List Nat) : List String :=
  order.filterMap (fun j => match env j with
    | .error e => some e
    | .ok _ => none)

/-- What one loop iteration of `makeContactSheet` contributes to the canvas:
`none` when the label render fails (the tile is skipped), otherwise the
pasted image and its position. -/
def sheetPaste (opts : ThumbOptions) (tw th : Int)
    (render : String → Except String GoImage) (p : Nat × Thumbnail) :
    Option (GoImage × Int × Int) :=
  if opts.OverlayTimestamps then
    match p.2.overlayTimestamp render with
    | .error _ => none
    | .ok t2 => some (t2.Image, xPos opts tw p.1, yPos opts th p.1)
  else some (p.2.Image, xPos opts tw p.1, yPos opts th p.1)

/-- Concrete 7-tile input for the C9 witness. -/
def thumbs7 : List Thumbnail :=
  [{ Image := .raw 0 540 300, Timestamp := 0 },
    { Image := .raw 1 540 300, Timestamp := 60 * nsPerSecond },
    { Image := .raw 2 540 300, Timestamp := 120 * nsPerSecond },
    { Image := .raw 3 540 300, Timestamp := 180 * nsPerSecond },
    { Image := .raw 4 540 300, Timestamp := 240 * nsPerSecond },
    { Image := .raw 5 540 300, Timestamp := 300 * nsPerSecond },
    { Image := .raw 6 540 300, Timestamp := 360 * nsPerSecond }]

/-- Concrete options for the C9 witness. -/
def opts9 : ThumbOptions := { TileColumns := 3, Padding := 10 }

/-- Go's `int64(f)` conversion for a `float64` value: truncation toward
zero.  The probed seconds value is carried exactly as a rational (every
ffprobe output short enough to matter is exactly representable in float64
up to parsing rounding, which does not affect the truncation bug below). -/
def goTruncToInt (q : ℚ) : Int := if 0 ≤ q then ⌊q⌋ else ⌈q⌉

/-- The result conversion of `readDuration`:
`time.Second * time.Duration(seconds)` where `seconds` is the float parsed
from ffprobe's output — the float is truncated to a whole number of seconds
before being scaled to nanoseconds. -/
def readDurationNs (seconds : ℚ) : Int := nsPerSecond * goTruncToInt seconds

-- Sanity checks (planner, color parser, sheet step) -------------------------

example : planTimestamps { From := 0, To := 100 * nsPerSecond, TileCount := 5 } 1 =
    .ok [0, 20000000000, 40000000000, 60000000000, 80000000000] := by decide

example : planTimestamps { Interval := 60 * nsPerSecond } (125 * nsPerSecond) =
    .ok [0, 62500000000] := by decide

example : ParseColor "#F0F0F0" = .ok (.rgba 240 240 240 255) := by decide

example : ParseColor "" = .crash := by decide

example : formatDuration (62500000000 : Int) = "00:01:02" := by decide

/-! ## Helper lemmas -/

theorem goDiv_natCast (a b : Nat) : goDiv (a : Int) (b : Int) = ((a / b : Nat) : Int) := by
  unfold goDiv
  cases a with
  | zero => simp
  | succ a' =>
    cases b with
    | zero => simp
    | succ b' =>
      have h1 : Int.sign ((a' + 1 : Nat) : Int) = 1 := rfl
      have h2 : Int.sign ((b' + 1 : Nat) : Int) = 1 := rfl
      rw [h1, h2, Int.natAbs_ofNat, Int.natAbs_ofNat, one_mul, one_mul]

theorem goMod_natCast (a b : Nat) : goMod (a : Int) (b : Int) = ((a % b : Nat) : Int) := by
  unfold goMod
  cases a with
  | zero => simp
  | succ a' =>
    have h1 : Int.sign ((a' + 1 : Nat) : Int) = 1 := rfl
    rw [h1, Int.natAbs_ofNat, Int.natAbs_ofNat, one_mul]

theorem goDiv_pos_of_le (a b : Int) (hb : 0 < b) (hba : b ≤ a) : 0 < goDiv a b := by
  have ha : 0 ≤ a := le_trans hb.le hba
  have h1 : ((a.toNat : Nat) : Int) = a := Int.toNat_of_nonneg ha
  have h2 : ((b.toNat : Nat) : Int) = b := Int.toNat_of_nonneg hb.le
  rw [← h1, ← h2, goDiv_natCast]
  have hb' : 0 < b.toNat := by omega
  have hba' : b.toNat ≤ a.toNat := by omega
  have h3 : 1 ≤ a.toNat / b.toNat := (Nat.one_le_div_iff hb').mpr hba'
  exact_mod_cast Nat.lt_of_lt_of_le Nat.zero_lt_one h3

/-- Unfolded form of the planner, for rewriting in proofs. -/
theorem planTimestamps_eq (opts : ThumbOptions) (total : Int) :
    planTimestamps opts total =
      if opts.Interval > windowOf opts total then
        .fail "interval is larger than available video duration"
      else if (if opts.Interval ≠ 0 then goDiv (windowOf opts total) opts.Interval
          else opts.TileCount) = 0 then .crash
      else
        .ok ((List.range (if opts.Interval ≠ 0 then goDiv (windowOf opts total) opts.Interval
            else opts.TileCount).toNat).map
          (fun i : Nat => opts.From + (i : Int) *
            goDiv (windowOf opts total)
              (if opts.Interval ≠ 0 then goDiv (windowOf opts total) opts.Interval
                else opts.TileCount))) := rfl

/-! ## C10: probed-duration precision -/

/-- C10: the duration prober does NOT preserve sub-second precision: for a
probe output of 3.5 seconds, `time.Second * time.Duration(seconds)` first
truncates the float to the whole second 3, so `readDuration` returns 3s
(3e9 ns), not 3.5s.  The claim (and the spec's contract of sub-second
precision) is contradicted by the code; the conversion is the slip. -/
theorem c10_duration_truncated :
    readDurationNs ((7 : ℚ) / 2) = 3 * nsPerSecond ∧
    ((readDurationNs ((7 : ℚ) / 2) : ℚ) ≠ ((7 : ℚ) / 2) * (nsPerSecond : ℚ)) := by
  have htr : goTruncToInt ((7 : ℚ) / 2) = 3 := by
    rw [goTruncToInt, if_pos (by norm_num)]
    rw [Int.floor_eq_iff]
    norm_num
  constructor
  · rw [readDurationNs, htr, nsPerSecond]
    norm_num
  · rw [readDurationNs, htr, nsPerSecond]
    push_cast
    norm_num

/-! ## C5: zero effective tile count -/

/-- C5: with both `Interval` and `TileCount` unset — which `Validate`
accepts — there is no `InvalidTileCount` check: `MakeThumbnails` reaches
`duration / time.Duration(0)` and panics with an integer divide by zero
(probed duration 100s here).  The claim's guarded behaviour does not exist
in the code. -/
theorem c5_zero_tile_count_panics :
    ({} : ThumbOptions).Validate = .ok () ∧
    MakeThumbnails {} (100 * nsPerSecond) (fun _ => .error "unused") [] = .crash := by
  exact ⟨rfl, by decide⟩

/-! ## C2: timing-plan formula -/

/-- C2 counterexample: a valid options record (window 3ns > 0, tileCount 5 >
0) for which the planner's nanosecond-integer spacing `3 / 5 = 0` makes the
emitted timestamps `[0,0,0,0,0]` — not strictly increasing, refuting the
claim's universally quantified strict monotonicity (and its real-valued
`spacing = window / tileCount`). -/
theorem c2_not_strictly_increasing :
    ({ From := 0, To := 3, TileCount := 5 } : ThumbOptions).Validate = .ok () ∧
    planTimestamps { From := 0, To := 3, TileCount := 5 } (100 * nsPerSecond) =
      .ok [0, 0, 0, 0, 0] ∧
    ¬ ([0, 0, 0, 0, 0] : List Int).Pairwise (· < ·) := by
  exact ⟨rfl, by decide, by decide⟩

/-- C2 amended: for valid options with `Interval` unset, `TileCount > 0` and
window > 0, the plan is exactly `tileCount` timestamps `start + i * spacing`
where `spacing = window / tileCount` in nanosecond integer (truncating)
division; they are strictly increasing whenever `tileCount ≤ window` (i.e.
the spacing is at least 1ns), and for from=0, to=100s, tileCount=5 they are
0, 20, 40, 60, 80 seconds exactly. -/
theorem c2_plan_formula (opts : ThumbOptions) (total : Int)
    (hI : opts.Interval = 0) (hT : 0 < opts.TileCount)
    (hW : 0 < windowOf opts total) :
    planTimestamps opts total =
      .ok ((List.range opts.TileCount.toNat).map
        (fun i : Nat => opts.From + (i : Int) * goDiv (windowOf opts total) opts.TileCount)) ∧
    ((List.range opts.TileCount.toNat).map
        (fun i : Nat => opts.From + (i : Int) * goDiv (windowOf opts total) opts.TileCount)).length
      = opts.TileCount.toNat ∧
    (opts.TileCount ≤ windowOf opts total →
      ((List.range opts.TileCount.toNat).map
        (fun i : Nat => opts.From + (i : Int) * goDiv (windowOf opts total) opts.TileCount)).Pairwise
        (· < ·)) ∧
    planTimestamps { From := 0, To := 100 * nsPerSecond, TileCount := 5 } 1 =
      .ok [0, 20000000000, 40000000000, 60000000000, 80000000000] := by
  have hguard : ¬ (opts.Interval > windowOf opts total) := by rw [hI]; omega
  refine ⟨?_, by rw [List.length_map, List.length_range], ?_, by decide⟩
  · rw [planTimestamps_eq, if_neg hguard, hI]
    rw [if_neg (by omega : ¬ ((0 : Int) ≠ 0))]
    rw [if_neg (by omega : ¬ (opts.TileCount = 0))]
  · intro hle
    have hspos : 0 < goDiv (windowOf opts total) opts.TileCount :=
      goDiv_pos_of_le _ _ hT hle
    refine List.pairwise_map.mpr ?_
    refine (List.pairwise_lt_range _).imp ?_
    intro a b hab
    have h1 : (a : Int) < (b : Int) := by exact_mod_cast hab
    have h2 := mul_lt_mul_of_pos_right h1 hspos
    omega

/-- C2 witness. -/
theorem c2_plan_formula_witness :
    planTimestamps { From := 0, To := 10 * nsPerSecond, TileCount := 2 } 1 =
      .ok ((List.range (2 : Int).toNat).map
        (fun i : Nat => (0 : Int) + (i : Int) *
          goDiv (windowOf { From := 0, To := 10 * nsPerSecond, TileCount := 2 } 1) 2)) ∧
    ((List.range (2 : Int).toNat).map
        (fun i : Nat => (0 : Int) + (i : Int) *
          goDiv (windowOf { From := 0, To := 10 * nsPerSecond, TileCount := 2 } 1) 2)).length
      = (2 : Int).toNat ∧
    ((2 : Int) ≤ windowOf { From := 0, To := 10 * nsPerSecond, TileCount := 2 } 1 →
      ((List.range (2 : Int).toNat).map
        (fun i : Nat => (0 : Int) + (i : Int) *
          goDiv (windowOf { From := 0, To := 10 * nsPerSecond, TileCount := 2 } 1) 2)).Pairwise
        (· < ·)) ∧
    planTimestamps { From := 0, To := 100 * nsPerSecond, TileCount := 5 } 1 =
      .ok [0, 20000000000, 40000000000, 60000000000, 80000000000] :=
  c2_plan_formula { From := 0, To := 10 * nsPerSecond, TileCount := 2 } 1 rfl
    (by decide) (by decide)

/-! ## C3: interval-driven tile count -/

/-- C3: when `Interval` is set (and `TileCount` unset) with
`0 < interval ≤ window`, the effective tile count is `⌊window / interval⌋`
(positive, so no division-by-zero panic) and the spacing is recomputed as
`window / tileCount` in nanosecond integer division — not the original
interval; for interval=60s, window=125s this gives 2 tiles at spacing
62.5s: timestamps 0 and 62.5s exactly. -/
theorem c3_interval_tile_count (opts : ThumbOptions) (total : Int)
    (hT : opts.TileCount = 0) (hI : 0 < opts.Interval)
    (hIW : opts.Interval ≤ windowOf opts total) :
    0 < goDiv (windowOf opts total) opts.Interval ∧
    planTimestamps opts total =
      .ok ((List.range (goDiv (windowOf opts total) opts.Interval).toNat).map
        (fun i : Nat => opts.From + (i : Int) *
          goDiv (windowOf opts total) (goDiv (windowOf opts total) opts.Interval))) ∧
    planTimestamps { Interval := 60 * nsPerSecond } (125 * nsPerSecond) =
      .ok [0, 62500000000] := by
  have htiles : 0 < goDiv (windowOf opts total) opts.Interval :=
    goDiv_pos_of_le _ _ hI hIW
  have hguard : ¬ (opts.Interval > windowOf opts total) := by omega
  refine ⟨htiles, ?_, by decide⟩
  rw [planTimestamps_eq, if_neg hguard]
  rw [if_pos (by omega : opts.Interval ≠ 0)]
  rw [if_neg (by omega : ¬ (goDiv (windowOf opts total) opts.Interval = 0))]

/-- C3 witness. -/
theorem c3_interval_tile_count_witness :
    0 < goDiv (windowOf { Interval := 60 * nsPerSecond } (125 * nsPerSecond))
        (60 * nsPerSecond) ∧
    planTimestamps { Interval := 60 * nsPerSecond } (125 * nsPerSecond) =
      .ok ((List.range (goDiv (windowOf { Interval := 60 * nsPerSecond } (125 * nsPerSecond))
            (60 * nsPerSecond)).toNat).map
        (fun i : Nat => (0 : Int) + (i : Int) *
          goDiv (windowOf { Interval := 60 * nsPerSecond } (125 * nsPerSecond))
            (goDiv (windowOf { Interval := 60 * nsPerSecond } (125 * nsPerSecond))
              (60 * nsPerSecond)))) ∧
    planTimestamps { Interval := 60 * nsPerSecond } (125 * nsPerSecond) =
      .ok [0, 62500000000] :=
  c3_interval_tile_count { Interval := 60 * nsPerSecond } (125 * nsPerSecond) rfl
    (by decide) (by decide)

/-! ## C6: window validation -/

/-- C6 counterexample: a valid options record with window = 0 (from = to =
5s) and `TileCount` set is NOT rejected — there is no `InvalidRange` check —
and `MakeThumbnails` returns 3 thumbnails, all sampled at the window start,
instead of failing. -/
theorem c6_zero_window_accepted :
    ({ From := 5 * nsPerSecond, To := 5 * nsPerSecond, TileCount := 3 } :
      ThumbOptions).Validate = .ok () ∧
    MakeThumbnails { From := 5 * nsPerSecond, To := 5 * nsPerSecond, TileCount := 3 }
        (99 * nsPerSecond) (fun _ => .ok (.raw 1 540 300)) [0, 1, 2] =
      .ok [{ Image := .raw 1 540 300, Timestamp := 5 * nsPerSecond },
        { Image := .raw 1 540 300, Timestamp := 5 * nsPerSecond },
        { Image := .raw 1 540 300, Timestamp := 5 * nsPerSecond }] := by
  exact ⟨rfl, by decide⟩

/-- C6 amended: with a nonnegative interval option, every input whose window
is negative — and every input with window = 0 and the interval set — fails
at the planning stage through the `interval is larger than available video
duration` guard (the only range check the code has) and produces no
thumbnails; window = 0 with `TileCount` set instead proceeds (see the
counterexample). -/
theorem c6_window_guard (opts : ThumbOptions) (total : Int)
    (env : Nat → Except String GoImage) (order : List Nat)
    (hI : 0 ≤ opts.Interval)
    (hw : windowOf opts total < 0 ∨ (windowOf opts total = 0 ∧ opts.Interval ≠ 0))
    (hv : opts.Validate = .ok ()) :
    MakeThumbnails opts total env order =
      .fail ["interval is larger than available video duration"] ∧
    ∀ th, MakeThumbnails opts total env order ≠ .ok th := by
  have hgt : opts.Interval > windowOf opts total := by
    rcases hw with h | ⟨h0, hne⟩ <;> omega
  have hplan : planTimestamps opts total =
      .fail "interval is larger than available video duration" := by
    rw [planTimestamps_eq, if_pos hgt]
  have hmk : MakeThumbnails opts total env order =
      .fail ["interval is larger than available video duration"] := by
    unfold MakeThumbnails
    rw [hv, hplan]
  exact ⟨hmk, fun th h => by rw [hmk] at h; exact MTOutcome.noConfusion h⟩

/-- C6 witness: from = 10s with probed duration 5s (to unset) gives window
-5s and a failed call. -/
theorem c6_window_guard_witness :
    MakeThumbnails { From := 10 * nsPerSecond, TileCount := 2 } (5 * nsPerSecond)
        (fun _ => .ok (.raw 1 2 2)) [0, 1] =
      .fail ["interval is larger than available video duration"] ∧
    ∀ th, MakeThumbnails { From := 10 * nsPerSecond, TileCount := 2 } (5 * nsPerSecond)
        (fun _ => .ok (.raw 1 2 2)) [0, 1] ≠ .ok th :=
  c6_window_guard { From := 10 * nsPerSecond, TileCount := 2 } (5 * nsPerSecond)
    (fun _ => .ok (.raw 1 2 2)) [0, 1] (by decide) (by decide) rfl

/-! ## Pool-stage machinery (C1, C7) -/

theorem poolStage_errs (ts : List Int) (env : Nat → Except String GoImage)
    (order : List Nat) :
    (order.map (fun i => taskRun ts env i)).filterMap (fun r => match r with
      | .error e => some e
      | .ok _ => none) = poolErrors env order := by
  rw [List.filterMap_map]
  unfold poolErrors
  congr 1
  funext j
  simp only [Function.comp]
  unfold taskRun
  cases h : env j <;> simp [h]

theorem sortByIndex_map_perm_range (n : Nat) (f : Nat → IndexedThumb)
    (hf : ∀ j, (f j).index = j) (order : List Nat)
    (hperm : order.Perm (List.range n)) :
    sortByIndex (order.map f) = (List.range n).map f := by
  unfold sortByIndex
  haveI : IsTotal IndexedThumb (fun a b => a.index ≤ b.index) :=
    ⟨fun a b => Nat.le_total a.index b.index⟩
  haveI : IsTrans IndexedThumb (fun a b => a.index ≤ b.index) :=
    ⟨fun a b c h1 h2 => Nat.le_trans h1 h2⟩
  haveI : IsAntisymm IndexedThumb (fun a b => a.index < b.index) :=
    ⟨fun a b h1 h2 => absurd (Nat.lt_trans h1 h2) (Nat.lt_irrefl _)⟩
  have hperm2 :
      (List.insertionSort (fun a b => a.index ≤ b.index) (order.map f)).Perm
        ((List.range n).map f) :=
    (List.perm_insertionSort _ _).trans (hperm.map f)
  have hcanon : ((List.range n).map f).Pairwise (fun a b => a.index < b.index) := by
    refine List.pairwise_map.mpr ?_
    refine (List.pairwise_lt_range n).imp ?_
    intro a b hab
    rw [hf, hf]
    exact hab
  have hsorted :
      (List.insertionSort (fun a b => a.index ≤ b.index) (order.map f)).Pairwise
        (fun a b => a.index ≤ b.index) :=
    List.sorted_insertionSort _ _
  have hnodup :
      (List.insertionSort (fun a b => a.index ≤ b.index) (order.map f)).Pairwise
        (fun a b => a.index ≠ b.index) := by
    have h1 : ((List.range n).map f).Pairwise (fun a b => a.index ≠ b.index) :=
      hcanon.imp (fun h => Nat.ne_of_lt h)
    exact (hperm2.pairwise_iff (fun h => Ne.symm h)).mpr h1
  have hstrict :
      (List.insertionSort (fun a b => a.index ≤ b.index) (order.map f)).Pairwise
        (fun a b => a.index < b.index) :=
    (hsorted.and hnodup).imp (fun h => Nat.lt_of_le_of_ne h.1 h.2)
  exact List.eq_of_perm_of_sorted hperm2 hstrict hcanon

theorem map_getD_range (l : List α) (d : α) :
    (List.range l.length).map (fun j => l.getD j d) = l := by
  apply List.ext_getElem
  · rw [List.length_map, List.length_range]
  · intro i h1 h2
    rw [List.getElem_map, List.getElem_range]
    rw [List.getD_eq_getElem?_getD, List.getElem?_eq_getElem h2]
    rfl

/-! ## C1: all-or-nothing extraction -/

/-- C1 counterexample: the failure value carries the causes but NOT the
failed samples' timestamps — two runs whose single sample fails with the
same cause at different planned timestamps (10s vs 40s) produce identical
`MakeThumbnails` results, so the returned error cannot determine the failed
timestamps; it is just the cause list (here `["boom"]`). -/
theorem c1_error_lacks_timestamps :
    MakeThumbnails { From := 10 * nsPerSecond, To := 20 * nsPerSecond, TileCount := 1 }
        (99 * nsPerSecond) (fun _ => .error "boom") [0] =
      MakeThumbnails { From := 40 * nsPerSecond, To := 50 * nsPerSecond, TileCount := 1 }
        (99 * nsPerSecond) (fun _ => .error "boom") [0] ∧
    MakeThumbnails { From := 10 * nsPerSecond, To := 20 * nsPerSecond, TileCount := 1 }
        (99 * nsPerSecond) (fun _ => .error "boom") [0] = .fail ["boom"] ∧
    planTimestamps { From := 10 * nsPerSecond, To := 20 * nsPerSecond, TileCount := 1 }
        (99 * nsPerSecond) = .ok [10 * nsPerSecond] ∧
    planTimestamps { From := 40 * nsPerSecond, To := 50 * nsPerSecond, TileCount := 1 }
        (99 * nsPerSecond) = .ok [40 * nsPerSecond] := by
  exact ⟨by decide, by decide, by decide, by decide⟩

/-- C1 amended: if any sample's extraction fails, the whole
`MakeThumbnails` call fails — the pool drains all tasks and the call returns
the aggregated error holding each failed sample's cause (in completion
order; timestamps are only logged, not carried in the error) and zero
thumbnails: no partial result is ever produced. -/
theorem c1_pool_all_or_nothing (opts : ThumbOptions) (total : Int) (ts : List Int)
    (env : Nat → Except String GoImage) (order : List Nat)
    (hv : opts.Validate = .ok ()) (hplan : planTimestamps opts total = .ok ts)
    (hperm : order.Perm (List.range ts.length))
    (hfail : ∃ i e, i < ts.length ∧ env i = .error e) :
    MakeThumbnails opts total env order = .fail (poolErrors env order) ∧
    poolErrors env order ≠ [] ∧
    ∀ th, MakeThumbnails opts total env order ≠ .ok th := by
  obtain ⟨i, e, hi, he⟩ := hfail
  have hmem : i ∈ order := hperm.mem_iff.mpr (List.mem_range.mpr hi)
  have hein : e ∈ poolErrors env order := by
    unfold poolErrors
    exact List.mem_filterMap.mpr ⟨i, hmem, by rw [he]⟩
  have hne : poolErrors env order ≠ [] := List.ne_nil_of_mem hein
  have hpool : poolStage ts env order = .fail (poolErrors env order) := by
    simp only [poolStage, poolStage_errs]
    rw [if_neg]
    simp [List.isEmpty_iff, hne]
  have hmk : MakeThumbnails opts total env order = .fail (poolErrors env order) := by
    unfold MakeThumbnails
    rw [hv, hplan]
    show (match poolStage ts env order with
      | PoolOutcome.fail errs => MTOutcome.fail errs
      | PoolOutcome.ok thumbs => MTOutcome.ok thumbs) = MTOutcome.fail (poolErrors env order)
    rw [hpool]
  exact ⟨hmk, hne, fun th h => by rw [hmk] at h; exact MTOutcome.noConfusion h⟩

/-- C1 witness: two samples, completion order reversed, second sample fails. -/
theorem c1_pool_all_or_nothing_witness :
    MakeThumbnails { From := 0, To := 10 * nsPerSecond, TileCount := 2 } 1
        (fun i => if i = 0 then .ok (.raw 1 2 2) else .error "boom") [1, 0] =
      .fail (poolErrors (fun i => if i = 0 then .ok (.raw 1 2 2) else .error "boom")
        [1, 0]) ∧
    poolErrors (fun i => if i = 0 then .ok (.raw 1 2 2) else .error "boom") [1, 0] ≠ [] ∧
    ∀ th, MakeThumbnails { From := 0, To := 10 * nsPerSecond, TileCount := 2 } 1
        (fun i => if i = 0 then .ok (.raw 1 2 2) else .error "boom") [1, 0] ≠ .ok th :=
  c1_pool_all_or_nothing { From := 0, To := 10 * nsPerSecond, TileCount := 2 } 1
    [0, 5 * nsPerSecond] (fun i => if i = 0 then .ok (.raw 1 2 2) else .error "boom")
    [1, 0] rfl (by decide) (by decide) ⟨1, "boom", by decide, rfl⟩

/-! ## C7: completion order never observable -/

/-- C7: for every ordered sample list and every completion order of the pool
tasks, if all extractions succeed the returned thumbnails are sorted back to
the original sample order: `result[i].Timestamp` is the i-th planned
timestamp, for all i. -/
theorem c7_order_restored (ts : List Int) (env : Nat → Except String GoImage)
    (order : List Nat) (hperm : order.Perm (List.range ts.length))
    (hok : ∀ i, i < ts.length → ∃ img, env i = .ok img) :
    ∃ thumbs, poolStage ts env order = .ok thumbs ∧
      thumbs.map (fun t => t.Timestamp) = ts := by
  classical
  set f : Nat → IndexedThumb := fun j =>
    { thumb := { Image := (env j).toOption.getD .nilImage, Timestamp := ts.getD j 0 },
      index := j } with hfdef
  have htask : ∀ j ∈ order, taskRun ts env j = .ok (f j) := by
    intro j hj
    have hjn : j < ts.length := List.mem_range.mp (hperm.mem_iff.mp hj)
    obtain ⟨img, himg⟩ := hok j hjn
    unfold taskRun
    rw [hfdef]
    simp [Except.toOption, himg]
  have hcomp : order.map (fun i => taskRun ts env i) =
      order.map (fun j => Except.ok (f j)) :=
    List.map_congr_left htask
  have herrs : (order.map (fun j => (Except.ok (f j) : Except String IndexedThumb))).filterMap
      (fun r => match r with
        | .error e => some e
        | .ok _ => none) = [] := by
    rw [List.filterMap_map]
    simp [Function.comp]
  have hres : (order.map (fun j => (Except.ok (f j) : Except String IndexedThumb))).map
      (fun r => match r with
        | .error _ => { thumb := zeroThumb, index := 0 }
        | .ok r => r) = order.map f := by
    rw [List.map_map]
    rfl
  refine ⟨((List.range ts.length).map f).map (fun r => r.thumb), ?_, ?_⟩
  · simp only [poolStage, hcomp, herrs, hres]
    rw [sortByIndex_map_perm_range ts.length f (fun j => rfl) order hperm]
    rw [if_pos (show ([] : List String).isEmpty = true from rfl)]
  · rw [List.map_map, List.map_map]
    exact map_getD_range ts 0

/-- C7 witness: three samples completed in order [2, 0, 1]. -/
theorem c7_order_restored_witness :
    ∃ thumbs, poolStage [3, 7, 11] (fun i => .ok (.raw i 4 4)) [2, 0, 1] = .ok thumbs ∧
      thumbs.map (fun t => t.Timestamp) = [3, 7, 11] :=
  c7_order_restored [3, 7, 11] (fun i => .ok (.raw i 4 4)) [2, 0, 1] (by decide)
    (fun i _ => ⟨.raw i 4 4, rfl⟩)

/-! ## Contact-sheet machinery (C4, C9) -/

@[simp] theorem pastes_uniform (w h : Int) : (GoImage.uniform w h).pastes = [] := rfl

theorem sheetStep_pastes (opts : ThumbOptions) (tw th : Int)
    (render : String → Except String GoImage) (acc : GoImage) (p : Nat × Thumbnail) :
    (sheetStep opts tw th render acc p).pastes =
      acc.pastes ++ (sheetPaste opts tw th render p).toList := by
  unfold sheetStep sheetPaste
  cases opts.OverlayTimestamps
  · simp [GoImage.pastes]
  · cases h2 : p.2.overlayTimestamp render <;> simp [h2, GoImage.pastes]

theorem foldl_sheetStep_pastes (opts : ThumbOptions) (tw th : Int)
    (render : String → Except String GoImage) (l : List (Nat × Thumbnail)) :
    ∀ acc : GoImage,
      (l.foldl (sheetStep opts tw th render) acc).pastes =
        acc.pastes ++ l.filterMap (sheetPaste opts tw th render) := by
  induction l with
  | nil => intro acc; simp
  | cons p l ih =>
    intro acc
    rw [List.foldl_cons, ih, sheetStep_pastes, List.filterMap_cons]
    cases h : sheetPaste opts tw th render p <;> simp [Option.toList]

theorem sheetStep_dx (opts : ThumbOptions) (tw th : Int)
    (render : String → Except String GoImage) (acc : GoImage) (p : Nat × Thumbnail) :
    (sheetStep opts tw th render acc p).dx = acc.dx := by
  unfold sheetStep
  cases opts.OverlayTimestamps
  · simp [GoImage.dx]
  · cases h2 : p.2.overlayTimestamp render <;> simp [h2, GoImage.dx]

theorem sheetStep_dy (opts : ThumbOptions) (tw th : Int)
    (render : String → Except String GoImage) (acc : GoImage) (p : Nat × Thumbnail) :
    (sheetStep opts tw th render acc p).dy = acc.dy := by
  unfold sheetStep
  cases opts.OverlayTimestamps
  · simp [GoImage.dy]
  · cases h2 : p.2.overlayTimestamp render <;> simp [h2, GoImage.dy]

theorem foldl_sheetStep_dims (opts : ThumbOptions) (tw th : Int)
    (render : String → Except String GoImage) (l : List (Nat × Thumbnail)) :
    ∀ acc : GoImage,
      (l.foldl (sheetStep opts tw th render) acc).dx = acc.dx ∧
      (l.foldl (sheetStep opts tw th render) acc).dy = acc.dy := by
  induction l with
  | nil => intro acc; exact ⟨rfl, rfl⟩
  | cons p l ih =>
    intro acc
    rw [List.foldl_cons]
    rcases ih (sheetStep opts tw th render acc p) with ⟨h1, h2⟩
    rw [h1, h2, sheetStep_dx, sheetStep_dy]
    exact ⟨rfl, rfl⟩

theorem filterMap_some_eq_map (g : α → β) (l : List α) :
    l.filterMap (fun a => some (g a)) = l.map g := by
  induction l with
  | nil => rfl
  | cons a l ih => simp [List.filterMap_cons, ih]

/-! ## C4: label-render failure handling -/

/-- C4 counterexample: with overlays enabled and a renderer that fails on
every label, NO tile is pasted onto the canvas — the loop `continue`s past
the paste — refuting the claim that a tile whose label fails is still pasted
(just unlabeled).  Here both tiles of a 2-tile sheet vanish. -/
theorem c4_failed_label_tile_not_pasted :
    (makeContactSheet
        [{ Image := .raw 1 100 50, Timestamp := 0 },
          { Image := .raw 2 100 50, Timestamp := 0 }]
        { TileColumns := 3, Padding := 2, OverlayTimestamps := true }
        (fun _ => .error "font")).pastes = [] := by decide

/-- C4 amended: with overlays enabled, a tile whose label render fails is
logged and skipped entirely — it is not pasted at all, leaving a gap at its
grid position — while every tile whose label renders is pasted (with the
label overlaid) at its grid position; the composition itself always
completes and returns a sheet (a label failure never fails the whole
composition). -/
theorem c4_label_failure_skips_tile (thumbs : List Thumbnail) (opts : ThumbOptions)
    (render : String → Except String GoImage) (ho : opts.OverlayTimestamps = true) :
    (makeContactSheet thumbs opts render).pastes =
      thumbs.enum.filterMap (fun p =>
        match p.2.overlayTimestamp render with
        | .error _ => none
        | .ok t2 => some (t2.Image, xPos opts (tileWidthOf thumbs) p.1,
            yPos opts (tileHeightOf thumbs) p.1)) := by
  simp only [makeContactSheet]
  rw [foldl_sheetStep_pastes, pastes_uniform, List.nil_append]
  refine List.filterMap_congr ?_
  intro p _
  unfold sheetPaste
  rw [ho]
  simp

/-- C4 witness: two tiles; the label of the second (timestamp 01:00:00)
fails to render, so only the first tile is pasted. -/
theorem c4_label_failure_skips_tile_witness :
    (makeContactSheet
        [{ Image := .raw 1 100 50, Timestamp := 0 },
          { Image := .raw 2 100 50, Timestamp := 3600 * nsPerSecond }]
        { TileColumns := 2, Padding := 4, OverlayTimestamps := true }
        (fun s => if s = "00:00:00" then .ok (.raw 9 20 10) else .error "font")).pastes =
      (List.enum
        ([{ Image := .raw 1 100 50, Timestamp := 0 },
          { Image := .raw 2 100 50, Timestamp := 3600 * nsPerSecond }] :
            List Thumbnail)).filterMap
        (fun p =>
          match p.2.overlayTimestamp
            (fun s => if s = "00:00:00" then .ok (.raw 9 20 10) else .error "font") with
          | .error _ => none
          | .ok t2 => some (t2.Image,
              xPos { TileColumns := 2, Padding := 4, OverlayTimestamps := true }
                (tileWidthOf
                  [{ Image := .raw 1 100 50, Timestamp := 0 },
                    { Image := .raw 2 100 50, Timestamp := 3600 * nsPerSecond }]) p.1,
              yPos { TileColumns := 2, Padding := 4, OverlayTimestamps := true }
                (tileHeightOf
                  [{ Image := .raw 1 100 50, Timestamp := 0 },
                    { Image := .raw 2 100 50, Timestamp := 3600 * nsPerSecond }]) p.1)) :=
  c4_label_failure_skips_tile
    [{ Image := .raw 1 100 50, Timestamp := 0 },
      { Image := .raw 2 100 50, Timestamp := 3600 * nsPerSecond }]
    { TileColumns := 2, Padding := 4, OverlayTimestamps := true }
    (fun s => if s = "00:00:00" then .ok (.raw 9 20 10) else .error "font") rfl

/-! ## C9: grid layout -/

theorem goCeilDiv_bounds (n : Nat) (c : Int) (hc : 0 < c) :
    (n : Int) ≤ goCeilDiv (n : Int) c * c ∧
    (goCeilDiv (n : Int) c - 1) * c < (n : Int) := by
  set c' := c.toNat with hcdef
  have hc' : ((c' : Nat) : Int) = c := Int.toNat_of_nonneg hc.le
  have hc'pos : 0 < c' := by omega
  have hnc : ((n + c' - 1 : Nat) : Int) = (n : Int) + c - 1 := by omega
  have hdiv : goCeilDiv (n : Int) c = (((n + c' - 1) / c' : Nat) : Int) := by
    calc goCeilDiv (n : Int) c = goDiv ((n : Int) + c - 1) c := rfl
      _ = goDiv ((n + c' - 1 : Nat) : Int) ((c' : Nat) : Int) := by rw [hnc, hc']
      _ = (((n + c' - 1) / c' : Nat) : Int) := goDiv_natCast _ _
  rw [hdiv]
  have hdm := Nat.div_add_mod (n + c' - 1) c'
  have hml : (n + c' - 1) % c' < c' := Nat.mod_lt _ hc'pos
  have key1 : n ≤ c' * ((n + c' - 1) / c') := by omega
  have key2 : c' * ((n + c' - 1) / c') < n + c' := by omega
  have key1' : n ≤ ((n + c' - 1) / c') * c' := by
    rw [Nat.mul_comm ((n + c' - 1) / c') c']
    exact key1
  constructor
  · rw [← hc']
    exact_mod_cast key1'
  · rw [← hc']
    have key2z : ((c' : Nat) : Int) * (((n + c' - 1) / c' : Nat) : Int) < (n : Int) + c' := by
      exact_mod_cast key2
    have hring : ((((n + c' - 1) / c' : Nat) : Int) - 1) * ((c' : Nat) : Int) =
        ((c' : Nat) : Int) * (((n + c' - 1) / c' : Nat) : Int) - ((c' : Nat) : Int) := by
      ring
    rw [hring]
    omega

theorem colOf_natCast (c : Int) (hc : 0 < c) (i : Nat) :
    colOf c i = ((i % c.toNat : Nat) : Int) := by
  have hc' : ((c.toNat : Nat) : Int) = c := Int.toNat_of_nonneg hc.le
  unfold colOf
  calc goMod (i : Int) c = goMod ((i : Nat) : Int) ((c.toNat : Nat) : Int) := by rw [hc']
    _ = ((i % c.toNat : Nat) : Int) := goMod_natCast _ _

theorem rowOf_natCast (c : Int) (hc : 0 < c) (i : Nat) :
    rowOf c i = ((i / c.toNat : Nat) : Int) := by
  have hc' : ((c.toNat : Nat) : Int) = c := Int.toNat_of_nonneg hc.le
  unfold rowOf
  calc goDiv (i : Int) c = goDiv ((i : Nat) : Int) ((c.toNat : Nat) : Int) := by rw [hc']
    _ = ((i / c.toNat : Nat) : Int) := goDiv_natCast _ _

/-- Two grid cells at strictly increasing col (or row) coordinate are
separated by at least one full tile extent. -/
theorem tilePos_sep (P t p a b : Int) (ht : 0 < t) (hp : 0 ≤ p) (hab : a < b) :
    P + a * t + a * p + t ≤ P + b * t + b * p := by
  have h1 : (1 : Int) * (t + p) ≤ (b - a) * (t + p) :=
    mul_le_mul_of_nonneg_right (by omega) (by omega)
  nlinarith [h1]

/-- C9: for a non-empty thumbnail list, positive column count, nonnegative
padding and positive tile dimensions (taken from the first thumbnail),
`makeContactSheet` (overlay off): canvas width is
`c*tileWidth + (c+1)*padding`, height is `rows*tileHeight + (rows+1)*padding`
where `rows` satisfies the ceiling division bounds `(rows-1)*c < n ≤ rows*c`;
tile i is pasted at `x = padding + (i mod c)*(tileWidth+padding)`,
`y = padding + (i div c)*(tileHeight+padding)`; for n=7, c=3 rows is 3 and
tile 4 lands at row 1, column 1; and no two distinct tiles overlap. -/
theorem c9_grid_layout (thumbs : List Thumbnail) (opts : ThumbOptions)
    (render : String → Except String GoImage)
    (hn : thumbs ≠ []) (hc : 0 < opts.TileColumns) (hp : 0 ≤ opts.Padding)
    (htw : 0 < tileWidthOf thumbs) (hth : 0 < tileHeightOf thumbs)
    (ho : opts.OverlayTimestamps = false) :
    (makeContactSheet thumbs opts render).dx =
      tileWidthOf thumbs * opts.TileColumns + (opts.TileColumns + 1) * opts.Padding ∧
    (makeContactSheet thumbs opts render).dy =
      tileHeightOf thumbs * goCeilDiv (thumbs.length : Int) opts.TileColumns +
        (goCeilDiv (thumbs.length : Int) opts.TileColumns + 1) * opts.Padding ∧
    (thumbs.length : Int) ≤
        goCeilDiv (thumbs.length : Int) opts.TileColumns * opts.TileColumns ∧
    (goCeilDiv (thumbs.length : Int) opts.TileColumns - 1) * opts.TileColumns <
        (thumbs.length : Int) ∧
    (makeContactSheet thumbs opts render).pastes =
      thumbs.enum.map (fun p => (p.2.Image, xPos opts (tileWidthOf thumbs) p.1,
        yPos opts (tileHeightOf thumbs) p.1)) ∧
    (∀ i : Nat, xPos opts (tileWidthOf thumbs) i =
      opts.Padding + colOf opts.TileColumns i * (tileWidthOf thumbs + opts.Padding)) ∧
    (∀ i : Nat, yPos opts (tileHeightOf thumbs) i =
      opts.Padding + rowOf opts.TileColumns i * (tileHeightOf thumbs + opts.Padding)) ∧
    (goCeilDiv 7 3 = 3 ∧ rowOf 3 4 = 1 ∧ colOf 3 4 = 1) ∧
    (∀ i j : Nat, i ≠ j →
      xPos opts (tileWidthOf thumbs) i + tileWidthOf thumbs ≤
          xPos opts (tileWidthOf thumbs) j ∨
      xPos opts (tileWidthOf thumbs) j + tileWidthOf thumbs ≤
          xPos opts (tileWidthOf thumbs) i ∨
      yPos opts (tileHeightOf thumbs) i + tileHeightOf thumbs ≤
          yPos opts (tileHeightOf thumbs) j ∨
      yPos opts (tileHeightOf thumbs) j + tileHeightOf thumbs ≤
          yPos opts (tileHeightOf thumbs) i) := by
  have hbounds := goCeilDiv_bounds thumbs.length opts.TileColumns hc
  refine ⟨?_, ?_, hbounds.1, hbounds.2, ?_, ?_, ?_, ⟨by decide, by decide, by decide⟩, ?_⟩
  · simp only [makeContactSheet]
    rw [(foldl_sheetStep_dims _ _ _ _ _ _).1]
    rfl
  · simp only [makeContactSheet]
    rw [(foldl_sheetStep_dims _ _ _ _ _ _).2]
    rfl
  · simp only [makeContactSheet]
    rw [foldl_sheetStep_pastes, pastes_uniform, List.nil_append]
    have hfun : ∀ p ∈ thumbs.enum,
        sheetPaste opts (tileWidthOf thumbs) (tileHeightOf thumbs) render p =
          some (p.2.Image, xPos opts (tileWidthOf thumbs) p.1,
            yPos opts (tileHeightOf thumbs) p.1) := by
      intro p _
      unfold sheetPaste
      rw [ho]
      simp
    rw [List.filterMap_congr hfun]
    exact filterMap_some_eq_map _ _
  · intro i
    unfold xPos
    ring
  · intro i
    unfold yPos
    ring
  · intro i j hij
    have hcoli := colOf_natCast opts.TileColumns hc i
    have hcolj := colOf_natCast opts.TileColumns hc j
    have hrowi := rowOf_natCast opts.TileColumns hc i
    have hrowj := rowOf_natCast opts.TileColumns hc j
    set c' := opts.TileColumns.toNat with hcdef
    rcases Nat.lt_trichotomy (i % c') (j % c') with h | h | h
    · left
      unfold xPos
      rw [hcoli, hcolj]
      exact tilePos_sep _ _ _ _ _ htw hp (by exact_mod_cast h)
    · have hrow : i / c' ≠ j / c' := by
        intro he
        apply hij
        have di := Nat.div_add_mod i c'
        have dj := Nat.div_add_mod j c'
        rw [he, h] at di
        omega
      rcases Nat.lt_or_ge (i / c') (j / c') with h2 | h2
      · right; right; left
        unfold yPos
        rw [hrowi, hrowj]
        exact tilePos_sep _ _ _ _ _ hth hp (by exact_mod_cast h2)
      · have h3 : j / c' < i / c' := lt_of_le_of_ne h2 (fun he => hrow he.symm)
        right; right; right
        unfold yPos
        rw [hrowi, hrowj]
        exact tilePos_sep _ _ _ _ _ hth hp (by exact_mod_cast h3)
    · right; left
      unfold xPos
      rw [hcoli, hcolj]
      exact tilePos_sep _ _ _ _ _ htw hp (by exact_mod_cast h)

/-- C9 witness: 7 tiles in 3 columns with 10px padding. -/
theorem c9_grid_layout_witness :
    (makeContactSheet thumbs7 opts9 (fun _ => .error "unused")).dx =
      tileWidthOf thumbs7 * opts9.TileColumns + (opts9.TileColumns + 1) * opts9.Padding ∧
    (makeContactSheet thumbs7 opts9 (fun _ => .error "unused")).dy =
      tileHeightOf thumbs7 * goCeilDiv (thumbs7.length : Int) opts9.TileColumns +
        (goCeilDiv (thumbs7.length : Int) opts9.TileColumns + 1) * opts9.Padding ∧
    (thumbs7.length : Int) ≤
        goCeilDiv (thumbs7.length : Int) opts9.TileColumns * opts9.TileColumns ∧
    (goCeilDiv (thumbs7.length : Int) opts9.TileColumns - 1) * opts9.TileColumns <
        (thumbs7.length : Int) ∧
    (makeContactSheet thumbs7 opts9 (fun _ => .error "unused")).pastes =
      thumbs7.enum.map (fun p => (p.2.Image, xPos opts9 (tileWidthOf thumbs7) p.1,
        yPos opts9 (tileHeightOf thumbs7) p.1)) ∧
    (∀ i : Nat, xPos opts9 (tileWidthOf thumbs7) i =
      opts9.Padding + colOf opts9.TileColumns i * (tileWidthOf thumbs7 + opts9.Padding)) ∧
    (∀ i : Nat, yPos opts9 (tileHeightOf thumbs7) i =
      opts9.Padding + rowOf opts9.TileColumns i * (tileHeightOf thumbs7 + opts9.Padding)) ∧
    (goCeilDiv 7 3 = 3 ∧ rowOf 3 4 = 1 ∧ colOf 3 4 = 1) ∧
    (∀ i j : Nat, i ≠ j →
      xPos opts9 (tileWidthOf thumbs7) i + tileWidthOf thumbs7 ≤
          xPos opts9 (tileWidthOf thumbs7) j ∨
      xPos opts9 (tileWidthOf thumbs7) j + tileWidthOf thumbs7 ≤
          xPos opts9 (tileWidthOf thumbs7) i ∨
      yPos opts9 (tileHeightOf thumbs7) i + tileHeightOf thumbs7 ≤
          yPos opts9 (tileHeightOf thumbs7) j ∨
      yPos opts9 (tileHeightOf thumbs7) j + tileHeightOf thumbs7 ≤
          yPos opts9 (tileHeightOf thumbs7) i) :=
  c9_grid_layout thumbs7 opts9 (fun _ => .error "unused") (by decide) (by decide)
    (by decide) (by decide) (by decide) rfl

/-! ## C8: color parsing -/

theorem charBytes_ne_nil (c : Char) : charBytes c ≠ [] := by
  unfold charBytes
  dsimp only
  split_ifs <;> simp

theorem goBytes_ne_nil (s : String) (h : s ≠ "") : goBytes s ≠ [] := by
  intro hnil
  apply h
  unfold goBytes at hnil
  cases hd : s.data with
  | nil =>
    cases s with
    | mk data =>
      simp only at hd
      rw [hd]
  | cons ch cs =>
    rw [hd, List.flatMap_cons] at hnil
    rcases List.append_eq_nil.mp hnil with ⟨h1, _⟩
    exact absurd h1 (charBytes_ne_nil ch)

/-- C8 counterexample: `ParseColor` is NOT total-error on malformed input —
a 6-character non-hex string is accepted (each channel's `ParseInt` error is
discarded, leaving the channel 0) and the empty string panics on `hex[0]`
rather than returning `InvalidColor`. -/
theorem c8_lenient_and_crash :
    ParseColor "ZZZZZZ" = .ok (.rgba 0 0 0 255) ∧
    ParseColor "" = .crash := by
  exact ⟨by decide, by decide⟩

/-- C8 amended: `"transparent"` maps to the fully transparent color
(`color.Transparent`); 6 hex digits (with or without `#`) give that RGB at
alpha 255 and 8 give that RGBA; any other non-empty, non-`"transparent"`
input whose length after `#`-stripping is neither 6 nor 8 fails with the
invalid-color error; BUT the empty string panics (`hex[0]` out of range)
instead of failing, and every 6/8-length input is accepted — channel groups
that fail to parse as hex are silently read as 0. -/
theorem c8_parse_color :
    ParseColor "transparent" = .ok .transparentColor ∧
    ParseColor "#F0F0F0" = .ok (.rgba 240 240 240 255) ∧
    ParseColor "F0F0F0" = .ok (.rgba 240 240 240 255) ∧
    ParseColor "#101112CC" = .ok (.rgba 16 17 18 204) ∧
    ParseColor "#101112cc" = .ok (.rgba 16 17 18 204) ∧
    ParseColor "12345" = .fail "invalid hex color string" ∧
    ParseColor "" = .crash ∧
    (∀ s : String, s ≠ "" → s ≠ "transparent" →
      (stripHashBytes (goBytes s)).length ≠ 6 →
      (stripHashBytes (goBytes s)).length ≠ 8 →
      ParseColor s = .fail "invalid hex color string") ∧
    (∀ s : String, (stripHashBytes (goBytes s)).length = 6 →
      ∃ r g b, ParseColor s = .ok (.rgba r g b 255)) ∧
    (∀ s : String, (stripHashBytes (goBytes s)).length = 8 →
      ∃ r g b a, ParseColor s = .ok (.rgba r g b a)) := by
  refine ⟨by decide, by decide, by decide, by decide, by decide, by decide, by decide,
    ?_, ?_, ?_⟩
  · intro s hne htr h6 h8
    unfold ParseColor
    rw [if_neg htr]
    cases hbs : goBytes s with
    | nil => exact absurd hbs (goBytes_ne_nil s hne)
    | cons b0 rest =>
      rw [hbs] at h6 h8
      dsimp only
      rw [if_neg h6, if_neg h8]
  · intro s h6
    by_cases htr : s = "transparent"
    · subst htr
      exact absurd h6 (by decide)
    · have hne : s ≠ "" := by
        intro he
        subst he
        exact absurd h6 (by decide)
      unfold ParseColor
      rw [if_neg htr]
      cases hbs : goBytes s with
      | nil => exact absurd hbs (goBytes_ne_nil s hne)
      | cons b0 rest =>
        rw [hbs] at h6
        dsimp only
        rw [if_pos h6]
        exact ⟨_, _, _, rfl⟩
  · intro s h8
    by_cases htr : s = "transparent"
    · subst htr
      exact absurd h8 (by decide)
    · have hne : s ≠ "" := by
        intro he
        subst he
        exact absurd h8 (by decide)
      unfold ParseColor
      rw [if_neg htr]
      cases hbs : goBytes s with
      | nil => exact absurd hbs (goBytes_ne_nil s hne)
      | cons b0 rest =>
        rw [hbs] at h8
        dsimp only
        rw [if_neg (by omega : ¬ (stripHashBytes (b0 :: rest)).length = 6)]
        rw [if_pos h8]
        exact ⟨_, _, _, _, rfl⟩

/-- C8 witness: a 4-character non-hex string fails with the invalid-color
error through the amended general clause. -/
theorem c8_parse_color_witness :
    ParseColor "qqqq" = .fail "invalid hex color string" :=
  c8_parse_color.2.2.2.2.2.2.2.1 "qqqq" (by decide) (by decide) (by decide) (by decide)
